import Mathlib

/-!
Verification of the FIELDWAVE SF Policy Radar monitor (`monitor_legistar.py`).

The script polls the Legistar API for legislative matters, classifies each
matter with a pure rule evaluator (keyword groups, trigger departments,
escalation committees, priority tiers), normalizes dates and statuses, and
exports eligible matters to Notion.  Below is a shallow embedding of the
pure decision logic and of the run loop (with the HTTP push modelled as a
boolean success oracle), followed by theorems settling the specification
claims.
-/

set_option maxRecDepth 4000

namespace PolicyRadar

/-- Python's `needle in hay` substring test on strings, as containment of the
character list of `needle` inside the character list of `hay`. -/
def strContains (hay needle : String) : Bool :=
  decide (needle.data <:+: hay.data)

/-- Python's `str.lower()` (the source only lowercases ASCII department,
committee and matter text), as the per-character ASCII case map. -/
def pyLower (s : String) : String :=
  ⟨s.data.map Char.toLower⟩

/-- The phrase `w` occurs (case-insensitively) in `text`: substring containment
of `w` in the lowercased text, as the source performs via `w in text.lower()`. -/
def OccursIn (w text : String) : Prop :=
  w.data <:+: (pyLower text).data

/-- `KEYWORD_GROUPS` from the source, in dict-literal insertion order. -/
def KEYWORD_GROUPS : List (String × List String) :=
  [("arts_culture",
     ["art", "artwork", "artworks", "arts", "public art",
      "mural", "visual art", "culture", "cultural",
      "monument", "sculpture", "painting"]),
   ("artists_practice",
     ["artist", "artists", "dance", "literary", "music", "film"]),
   ("funding_tax",
     ["hotel tax",
      "transient occupancy tax",
      "tot",
      "budget and appropriation",
      "appropriation ordinance",
      "annual salary ordinance"])]

/-- `SECONDARY_TRIGGER_DEPARTMENTS` from the source. -/
def SECONDARY_TRIGGER_DEPARTMENTS : List String :=
  ["arts commission",
   "public art program",
   "asian art museum",
   "department of children, youth and their families",
   "economic and workforce development",
   "office of economic and workforce development",
   "fine arts museum",
   "fine arts museums",
   "grants for the arts",
   "museum of the african diaspora",
   "yerba buena center for the arts"]

/-- `ESCALATION_COMMITTEES` from the source. -/
def ESCALATION_COMMITTEES : List String :=
  ["budget and finance",
   "budget and appropriations",
   "appropriations",
   "government audit and oversight",
   "rules committee"]

/-- `KNOWN_STATUSES` from the source (a Python set of status strings). -/
def KNOWN_STATUSES : List String :=
  ["30 Day Rule", "Completed", "Consent Agenda", "Disapproved",
   "Discussed and Filed", "Failed", "Filed", "First Reading",
   "First Reading, Consent", "For Immediate Adoption", "Heard",
   "Introduced", "Killed", "Litigation-Attorney", "Mayors Office",
   "New Business", "Passed", "Pending", "Pending Committee Action",
   "Special Order", "To be Scheduled for Public Hearing",
   "Unfinished Business", "Unfinished Business-Final Passage",
   "Vetoed", "Withdrawn"]

/-- `match_keywords` from the source: lowercase the text, then for each
keyword group collect the phrases occurring as substrings; a group is
included (with its matched phrases) iff at least one phrase occurs. -/
def match_keywords (text : String) : List (String × List String) :=
  let t := pyLower text
  KEYWORD_GROUPS.filterMap fun gw =>
    let ms := gw.2.filter fun w => strContains t w
    if ms.isEmpty then none else some (gw.1, ms)

/-- `department_trigger` from the source: false on a missing/empty department,
otherwise substring containment of any trigger department in the lowercased
department string. -/
def department_trigger (dept : String) : Bool :=
  if dept = "" then false
  else SECONDARY_TRIGGER_DEPARTMENTS.any fun x => strContains (pyLower dept) x

/-- `committee_escalation` from the source: true iff some committee name
(lowercased) contains some escalation-committee entry as a substring. -/
def committee_escalation (committees : List String) : Bool :=
  committees.any fun c => ESCALATION_COMMITTEES.any fun e => strContains (pyLower c) e

/-- `assign_priority` from the source: HIGH when the `funding_tax` group hit
together with a department or committee hit; MEDIUM when any of the three
hit but not the HIGH condition; LOW otherwise. -/
def assign_priority (keyword_hits : List (String × List String))
    (dept_hit committee_hit : Bool) : String :=
  let funding_hit := keyword_hits.any fun gw => gw.1 == "funding_tax"
  if funding_hit && (dept_hit || committee_hit) then "HIGH"
  else if funding_hit || dept_hit || committee_hit then "MEDIUM"
  else "LOW"

lemma funding_hit_iff (hits : List (String × List String)) :
    (hits.any fun gw => gw.1 == "funding_tax") = true ↔
      "funding_tax" ∈ hits.map Prod.fst := by
  rw [List.any_eq_true]
  simp only [beq_iff_eq, List.mem_map]

/-- C1: `assign_priority` realizes exactly the spec's tier table over the
three booleans (funding-hit, department-hit, committee-hit), where
funding-hit means `"funding_tax"` is among the matched keyword groups:
HIGH ⇔ funding ∧ (department ∨ committee); MEDIUM ⇔ (funding ∨ department ∨
committee) ∧ ¬HIGH-condition; LOW ⇔ none of the three. -/
theorem c1_assign_priority_table (hits : List (String × List String)) (dh ch : Bool) :
    (assign_priority hits dh ch = "HIGH" ↔
      ("funding_tax" ∈ hits.map Prod.fst ∧ (dh = true ∨ ch = true))) ∧
    (assign_priority hits dh ch = "MEDIUM" ↔
      (("funding_tax" ∈ hits.map Prod.fst ∨ dh = true ∨ ch = true) ∧
        ¬("funding_tax" ∈ hits.map Prod.fst ∧ (dh = true ∨ ch = true)))) ∧
    (assign_priority hits dh ch = "LOW" ↔
      ("funding_tax" ∉ hits.map Prod.fst ∧ dh = false ∧ ch = false)) := by
  by_cases hf : "funding_tax" ∈ hits.map Prod.fst
  · have hb : (hits.any fun gw => gw.1 == "funding_tax") = true :=
      (funding_hit_iff hits).mpr hf
    cases dh <;> cases ch <;>
      simp [assign_priority, hb, hf]
  · have hb : (hits.any fun gw => gw.1 == "funding_tax") = false := by
      rw [← Bool.not_eq_true]; rw [funding_hit_iff hits]; exact hf
    cases dh <;> cases ch <;>
      simp [assign_priority, hb, hf]

/-- Witness for C1 at a concrete input: a matter whose only funding-group hit
comes with a committee hit is HIGH. -/
theorem c1_assign_priority_table_witness :
    assign_priority [("funding_tax", ["tot"])] false true = "HIGH" :=
  (c1_assign_priority_table [("funding_tax", ["tot"])] false true).1.mpr
    ⟨by decide, Or.inr rfl⟩

lemma strContains_iff (t w : String) : strContains t w = true ↔ w.data <:+: t.data := by
  simp [strContains]

lemma mem_match_keywords_iff (text g : String) (ms : List String) :
    (g, ms) ∈ match_keywords text ↔
      ∃ ws, (g, ws) ∈ KEYWORD_GROUPS ∧
        ms = ws.filter (fun w => strContains (pyLower text) w) ∧ ms ≠ [] := by
  rw [match_keywords, List.mem_filterMap]
  constructor
  · rintro ⟨⟨g1, ws1⟩, hgw, hf⟩
    by_cases he : (ws1.filter fun w => strContains (pyLower text) w) = []
    · rw [if_pos (by simp [he])] at hf
      cases hf
    · rw [if_neg (by simp [he])] at hf
      simp only [Option.some.injEq, Prod.mk.injEq] at hf
      obtain ⟨hg, hm⟩ := hf
      subst hg
      subst hm
      exact ⟨ws1, hgw, rfl, he⟩
  · rintro ⟨ws, hgw, hm, hne⟩
    refine ⟨(g, ws), hgw, ?_⟩
    rw [if_neg (by simp only [List.isEmpty_iff]; rw [← hm]; exact hne)]
    rw [hm]

/-- C3: `match_keywords` contains a group's name iff at least one of the
group's phrases occurs as a substring of the lowercased text; the group is
mapped to exactly the (nonempty) list of its phrases that occur; and when no
phrase of any group occurs the returned mapping is empty. -/
theorem c3_match_keywords_spec (text g : String) :
    ((∃ ms, (g, ms) ∈ match_keywords text) ↔
      (∃ ws, (g, ws) ∈ KEYWORD_GROUPS ∧ ∃ w ∈ ws, OccursIn w text)) ∧
    (∀ ms, (g, ms) ∈ match_keywords text →
      ∃ ws, (g, ws) ∈ KEYWORD_GROUPS ∧
        ms = ws.filter (fun w => strContains (pyLower text) w) ∧ ms ≠ []) ∧
    ((∀ gws ∈ KEYWORD_GROUPS, ∀ w ∈ gws.2, ¬ OccursIn w text) →
      match_keywords text = []) := by
  have hocc : ∀ w : String, strContains (pyLower text) w = true ↔ OccursIn w text := fun w =>
    strContains_iff (pyLower text) w
  refine ⟨⟨?_, ?_⟩, ?_, ?_⟩
  · rintro ⟨ms, hmem⟩
    rw [mem_match_keywords_iff] at hmem
    obtain ⟨ws, hgw, hm, hne⟩ := hmem
    obtain ⟨w, hw⟩ := List.exists_mem_of_ne_nil
      (ws.filter fun w => strContains (pyLower text) w) (by rw [← hm]; exact hne)
    rw [List.mem_filter] at hw
    exact ⟨ws, hgw, w, hw.1, (hocc w).mp hw.2⟩
  · rintro ⟨ws, hmem, w, hw, hw2⟩
    refine ⟨ws.filter (fun w => strContains (pyLower text) w), ?_⟩
    rw [mem_match_keywords_iff]
    refine ⟨ws, hmem, rfl, ?_⟩
    intro h
    rw [List.filter_eq_nil_iff] at h
    exact h w hw ((hocc w).mpr hw2)
  · intro ms hmem
    rw [mem_match_keywords_iff] at hmem
    exact hmem
  · intro hnone
    rw [match_keywords, List.filterMap_eq_nil_iff]
    intro gw hgw
    have hnil : (gw.2.filter fun w => strContains (pyLower text) w) = [] := by
      rw [List.filter_eq_nil_iff]
      intro w hw hc
      exact hnone gw hgw w hw ((hocc w).mp hc)
    simp [hnil]

/-- Witness for C3 at a concrete input: the text "Public Art Budget" matched
against the group "arts_culture". -/
theorem c3_match_keywords_spec_witness :
    ∃ ms, ("arts_culture", ms) ∈ match_keywords "Public Art Budget" :=
  (c3_match_keywords_spec "Public Art Budget" "arts_culture").1.mpr
    ⟨["art", "artwork", "artworks", "arts", "public art",
      "mural", "visual art", "culture", "cultural",
      "monument", "sculpture", "painting"], by decide, "art", by decide, by
        show ("art".data <:+: (pyLower "Public Art Budget").data)
        decide⟩

/-- The JSON value found under `MatterSponsorSequence`: a number, a string, or
null/absent (Python's `.get` gives `None` for both). -/
inductive SeqVal where
  | int (n : Int)
  | str (s : String)
  | null
deriving DecidableEq

/-- One sponsor object as fetched from the API: name (null/absent as `none`),
sequence value, and the `MatterSponsorPrimary` flag (null/absent as `none`). -/
structure Sponsor where
  name : Option String
  seq : SeqVal
  primary : Option Bool
deriving DecidableEq

/-- Python `int(s)` on an all-digit string. -/
def strToNat (s : String) : Nat :=
  s.data.foldl (fun a c => 10 * a + (c.toNat - 48)) 0

/-- The `seq_num` conversion in `fetch_sponsors`: an `int` is taken as is, a
nonempty all-digit string is converted with `int(...)`, anything else is
`None`. -/
def seqNum : SeqVal → Option Int
  | .int n => some n
  | .str s => if s ≠ "" ∧ s.data.all Char.isDigit then some (strToNat s) else none
  | .null => none

/-- One iteration of the `for s in sponsors` loop in `fetch_sponsors`:
skip nameless entries; an explicit `True` flag or sequence number 1
overwrites the primary slot; otherwise a resolvable sequence number greater
than 1 appends to the secondary list. -/
def sponsorStep (acc : Option String × List String) (s : Sponsor) :
    Option String × List String :=
  match s.name with
  | none => acc
  | some nm =>
    if nm = "" then acc
    else if s.primary = some true ∨ seqNum s.seq = some 1 then (some nm, acc.2)
    else
      match seqNum s.seq with
      | some n => if n ≠ 0 ∧ 1 < n then (acc.1, acc.2 ++ [nm]) else acc
      | none => acc

/-- `fetch_sponsors` from the source (the sponsor list already fetched):
returns `(primary_sponsor, secondary_sponsors)`. -/
def fetch_sponsors (sponsors : List Sponsor) : Option String × List String :=
  sponsors.foldl sponsorStep (none, [])

/-- The entry has a usable (non-falsy) name. -/
def hasName (s : Sponsor) : Bool :=
  decide (s.name.getD "" ≠ "")

/-- The entry claims the primary slot: usable name, and an explicit `True`
flag or a sequence number resolving to 1. -/
def isPrimaryCand (s : Sponsor) : Bool :=
  hasName s && decide (s.primary = some true ∨ seqNum s.seq = some 1)

/-- The entry lands in the secondary list: usable name, does not claim the
primary slot, and has a sequence number resolving to an integer above 1. -/
def isSecondaryCand (s : Sponsor) : Bool :=
  hasName s && !decide (s.primary = some true ∨ seqNum s.seq = some 1) &&
    (match seqNum s.seq with
     | some n => decide (n ≠ 0 ∧ 1 < n)
     | none => false)

lemma getLast?_cons_or {α : Type} (a : α) (t : List α) :
    (a :: t).getLast? = t.getLast?.or (some a) := by
  cases t with
  | nil => rfl
  | cons b t' =>
    rw [List.getLast?_cons_cons]
    obtain ⟨x, hx⟩ :=
      Option.isSome_iff_exists.mp (List.getLast?_isSome.mpr (List.cons_ne_nil b t'))
    rw [hx]
    rfl

lemma sponsor_foldl (l : List Sponsor) (p : Option String) (sec : List String) :
    l.foldl sponsorStep (p, sec) =
      (((l.filter isPrimaryCand).map (fun s => s.name.getD "")).getLast?.or p,
        sec ++ (l.filter isSecondaryCand).map (fun s => s.name.getD "")) := by
  induction l generalizing p sec with
  | nil => simp
  | cons s l ih =>
    obtain ⟨nm?, sq, pr⟩ := s
    rw [List.foldl_cons]
    cases nm? with
    | none =>
      have h1 : isPrimaryCand ⟨none, sq, pr⟩ = false := by simp [isPrimaryCand, hasName]
      have h2 : isSecondaryCand ⟨none, sq, pr⟩ = false := by simp [isSecondaryCand, hasName]
      have hs : sponsorStep (p, sec) ⟨none, sq, pr⟩ = (p, sec) := rfl
      rw [hs, ih]
      simp [List.filter_cons, h1, h2]
    | some nm =>
      by_cases hnm : nm = ""
      · subst hnm
        have h1 : isPrimaryCand ⟨some "", sq, pr⟩ = false := by simp [isPrimaryCand, hasName]
        have h2 : isSecondaryCand ⟨some "", sq, pr⟩ = false := by simp [isSecondaryCand, hasName]
        have hs : sponsorStep (p, sec) ⟨some "", sq, pr⟩ = (p, sec) := by
          simp [sponsorStep]
        rw [hs, ih]
        simp [List.filter_cons, h1, h2]
      · by_cases hc : pr = some true ∨ seqNum sq = some 1
        · have h1 : isPrimaryCand ⟨some nm, sq, pr⟩ = true := by
            simp [isPrimaryCand, hasName, hnm, hc]
          have h2 : isSecondaryCand ⟨some nm, sq, pr⟩ = false := by
            simp [isSecondaryCand, hc]
          have hs : sponsorStep (p, sec) ⟨some nm, sq, pr⟩ = (some nm, sec) := by
            simp [sponsorStep, hnm, hc]
          rw [hs, ih]
          simp only [List.filter_cons, h1, h2, if_pos, if_neg, Bool.false_eq_true,
            ite_true, ite_false, List.map_cons, Option.getD_some, getLast?_cons_or,
            Option.or_assoc]
          rfl
        · have h1 : isPrimaryCand ⟨some nm, sq, pr⟩ = false := by
            simp [isPrimaryCand, hasName, hnm, hc]
          push_neg at hc
          obtain ⟨hcp, hcs⟩ := hc
          cases hq : seqNum sq with
          | some n =>
            have hn1 : n ≠ 1 := fun h => hcs (by rw [hq, h])
            by_cases hn : n ≠ 0 ∧ 1 < n
            · have h2 : isSecondaryCand ⟨some nm, sq, pr⟩ = true := by
                simp [isSecondaryCand, hasName, hnm, hcp, hq, hn1, hn]
              have hs : sponsorStep (p, sec) ⟨some nm, sq, pr⟩ = (p, sec ++ [nm]) := by
                simp [sponsorStep, hnm, hcp, hq, hn1, hn]
              rw [hs, ih]
              simp [List.filter_cons, h1, h2]
            · have h2 : isSecondaryCand ⟨some nm, sq, pr⟩ = false := by
                simp [isSecondaryCand, hasName, hnm, hcp, hq, hn1, hn]
              have hs : sponsorStep (p, sec) ⟨some nm, sq, pr⟩ = (p, sec) := by
                simp [sponsorStep, hnm, hcp, hq, hn1, hn]
              rw [hs, ih]
              simp [List.filter_cons, h1, h2]
          | none =>
            have h2 : isSecondaryCand ⟨some nm, sq, pr⟩ = false := by
              simp [isSecondaryCand, hasName, hnm, hcp, hcs, hq]
            have hs : sponsorStep (p, sec) ⟨some nm, sq, pr⟩ = (p, sec) := by
              simp [sponsorStep, hnm, hcp, hcs, hq]
            rw [hs, ih]
            simp [List.filter_cons, h1, h2]

/-- Sponsor entry `"C"`: explicit primary flag, sequence 3. -/
def spC : Sponsor := { name := some "C", seq := .int 3, primary := some true }

/-- Sponsor entry `"A"`: sequence 1, no primary flag. -/
def spA1 : Sponsor := { name := some "A", seq := .int 1, primary := none }

/-- Sponsor entry `"B"`: sequence 2, no primary flag. -/
def spB : Sponsor := { name := some "B", seq := .int 2, primary := none }

/-- C5 counterexample: with the explicitly-flagged entry `"C"` listed before
the sequence-1 entry `"A"`, the loop's last-wins overwrite makes `"A"` the
primary — refuting the claim that an explicit true flag is selected over a
sequence-number-1 entry regardless of the order of the entries, and that
sequence 1 only wins when no explicit true flag exists in the collection. -/
theorem c5_counterexample :
    (fetch_sponsors [spC, spA1]).1 = some "A" ∧
      (fetch_sponsors [spC, spA1]).1 ≠ some "C" := by
  decide

/-- C5 (amended): an entry claims the primary slot iff it has a usable name
and either an explicit true flag or a sequence number resolving to 1; the
last such entry in iteration order wins (so an explicit flag is overridden by
any later claimant); an entry with a usable name, no claim to the primary
slot, and a sequence number greater than 1 is appended to the secondaries in
order. -/
theorem c5_sponsor_extraction_last_wins (l : List Sponsor) :
    fetch_sponsors l =
      (((l.filter isPrimaryCand).map (fun s => s.name.getD "")).getLast?,
        (l.filter isSecondaryCand).map (fun s => s.name.getD "")) := by
  rw [fetch_sponsors, sponsor_foldl]
  rw [Option.or_none]
  rw [List.nil_append]

/-- C6: on the spec's example list [A seq 1, B seq 2, C primary seq 3] the
extraction returns primary "C" and secondaries ["B"]; "A" is neither the
primary nor among the secondaries. -/
theorem c6_sponsor_example :
    fetch_sponsors [spA1, spB, spC] = (some "C", ["B"]) ∧
      (fetch_sponsors [spA1, spB, spC]).1 ≠ some "A" ∧
      "A" ∉ (fetch_sponsors [spA1, spB, spC]).2 := by
  decide

/-- Gregorian leap-year test, as CPython's `datetime` uses. -/
def isLeap (y : Nat) : Bool :=
  (y % 4 == 0 && y % 100 != 0) || y % 400 == 0

/-- Days in a month of the proleptic Gregorian calendar, as CPython's
`datetime` validates day-of-month. -/
def daysInMonth (y m : Nat) : Nat :=
  if m = 2 then (if isLeap y then 29 else 28)
  else if m = 4 ∨ m = 6 ∨ m = 9 ∨ m = 11 then 30
  else 31

/-- Numeric value of an ASCII digit character. -/
def digitVal (c : Char) : Nat := c.toNat - 48

/-- ASCII digit character for a value below 10. -/
def digitChar (d : Nat) : Char := Char.ofNat (48 + d)

/-- Two-digit zero-padded decimal rendering, as `date.isoformat()` emits. -/
def pad2 (n : Nat) : List Char := [digitChar (n / 10 % 10), digitChar (n % 10)]

/-- Four-digit zero-padded decimal rendering, as `date.isoformat()` emits. -/
def pad4 (n : Nat) : List Char :=
  [digitChar (n / 1000 % 10), digitChar (n / 100 % 10),
   digitChar (n / 10 % 10), digitChar (n % 10)]

/-- `date(y, m, d).isoformat()`: the canonical `YYYY-MM-DD` string. -/
def dateIso (ymd : Nat × Nat × Nat) : String :=
  ⟨pad4 ymd.1 ++ '-' :: pad2 ymd.2.1 ++ '-' :: pad2 ymd.2.2⟩

/-- Days-since-Unix-epoch to Gregorian (year, month, day): the calendar
arithmetic behind `datetime.utcfromtimestamp(...).date()` for nonnegative
timestamps (standard civil-from-days computation). -/
def civilFromDays (z : Nat) : Nat × Nat × Nat :=
  let z' := z + 719468
  let era := z' / 146097
  let doe := z' % 146097
  let yoe := (doe - doe / 1460 + doe / 36524 - doe / 146096) / 365
  let y := yoe + era * 400
  let doy := doe - (365 * yoe + yoe / 4 - yoe / 100)
  let mp := (5 * doy + 2) / 153
  let d := doy - (153 * mp + 2) / 5 + 1
  let m := if mp < 10 then mp + 3 else mp - 9
  (if m ≤ 2 then y + 1 else y, m, d)

/-- Python `int(s)` over a digit-character list. -/
def natOfDigits (cs : List Char) : Nat :=
  cs.foldl (fun a c => 10 * a + digitVal c) 0

/-- The strict `YYYY-MM-DD` grammar of `datetime.fromisoformat`'s date part:
exactly ten characters, digits with dashes at positions 4 and 7, year 1-9999,
month 1-12, day within the month. -/
def isoDate? : List Char → Option (Nat × Nat × Nat)
  | [c0, c1, c2, c3, '-', c5, c6, '-', c8, c9] =>
    if c0.isDigit && c1.isDigit && c2.isDigit && c3.isDigit &&
        c5.isDigit && c6.isDigit && c8.isDigit && c9.isDigit then
      let y := 1000 * digitVal c0 + 100 * digitVal c1 + 10 * digitVal c2 + digitVal c3
      let m := 10 * digitVal c5 + digitVal c6
      let d := 10 * digitVal c8 + digitVal c9
      if 1 ≤ y ∧ 1 ≤ m ∧ m ≤ 12 ∧ 1 ≤ d ∧ d ≤ daysInMonth y m then some (y, m, d)
      else none
    else none
  | _ => none

/-- Read two ASCII digits off the front of a character list. -/
def twoDigits? : List Char → Option (Nat × List Char)
  | c0 :: c1 :: rest =>
    if c0.isDigit && c1.isDigit then some (10 * digitVal c0 + digitVal c1, rest)
    else none
  | _ => none

/-- A fractional-seconds suffix: a dot followed by exactly three or exactly
six digits, as `fromisoformat` accepts. -/
def validFrac : List Char → Bool
  | ['.', a, b, c] => a.isDigit && b.isDigit && c.isDigit
  | ['.', a, b, c, d, e, f] =>
    a.isDigit && b.isDigit && c.isDigit && d.isDigit && e.isDigit && f.isDigit
  | _ => false

/-- The `HH[:MM[:SS[.fff[fff]]]]` time grammar of `fromisoformat`, with the
range checks the `datetime` constructor performs. -/
def validHMS (cs : List Char) : Bool :=
  match twoDigits? cs with
  | none => false
  | some (h, rest) =>
    decide (h ≤ 23) &&
    (match rest with
     | [] => true
     | ':' :: rest2 =>
       match twoDigits? rest2 with
       | none => false
       | some (mi, rest3) =>
         decide (mi ≤ 59) &&
         (match rest3 with
          | [] => true
          | ':' :: rest4 =>
            match twoDigits? rest4 with
            | none => false
            | some (s, rest5) => decide (s ≤ 59) && (rest5.isEmpty || validFrac rest5)
          | _ => false)
     | _ => false)

/-- Split a character list at the first occurrence of `p` (assumed present):
the characters before it and the characters after it. -/
def splitAtFirst (p : Char) : List Char → (List Char × List Char)
  | [] => ([], [])
  | c :: rest =>
    if c = p then ([], rest)
    else
      let s := splitAtFirst p rest
      (c :: s.1, s.2)

/-- The time-of-day-with-offset grammar of `fromisoformat`: an optional UTC
offset introduced by the first `-` (else the first `+`), whose body must be
`HH:MM`, `HH:MM:SS` or `HH:MM:SS.ffffff` (lengths 5, 8, 15) and itself parse
as a time. -/
def validTimeOffset (cs : List Char) : Bool :=
  if '-' ∈ cs then
    let s := splitAtFirst '-' cs
    validHMS s.1 && (s.2.length == 5 || s.2.length == 8 || s.2.length == 15) && validHMS s.2
  else if '+' ∈ cs then
    let s := splitAtFirst '+' cs
    validHMS s.1 && (s.2.length == 5 || s.2.length == 8 || s.2.length == 15) && validHMS s.2
  else validHMS cs

/-- `datetime.fromisoformat`, reduced to the date triple it yields (the
program discards the time of day): ten-character date part, then optionally
any single separator character and a valid time-with-offset part.  `none`
models `ValueError`. -/
def fromisoformat? (cs : List Char) : Option (Nat × Nat × Nat) :=
  match isoDate? (cs.take 10) with
  | none => none
  | some ymd =>
    match cs.drop 10 with
    | [] => some ymd
    | _sep :: rest => if rest.isEmpty || validTimeOffset rest then some ymd else none

/-- Python's `value.replace("Z", "+00:00")` on the character list. -/
def replaceZ (cs : List Char) : List Char :=
  cs.flatMap fun c => if c = 'Z' then "+00:00".data else [c]

/-- An exception escaping the date parser: the source calls
`datetime.utcfromtimestamp` outside its `try` block, and that call raises
when the embedded timestamp falls outside `datetime`'s year range 1-9999. -/
inductive PyDateError where
  | overflow
deriving DecidableEq

/-- Latest second `datetime.utcfromtimestamp` accepts (9999-12-31 23:59:59 UTC). -/
def maxPySeconds : Nat := 253402300799

/-- `parse_legistar_date` from the source.  `none` models a missing/null
input (falsy, like the empty string).  The legacy `/Date(ms)/` branch keeps
the digits of the inner text, divides by 1000 and converts via
`utcfromtimestamp(...).date().isoformat()` — raising (`.error`) on a
timestamp beyond year 9999 since that call is outside the `try`.  All other
strings go through `fromisoformat` after replacing `"Z"` with `"+00:00"`,
where any `ValueError` is caught and degrades to the empty string. -/
def parse_legistar_date (value : Option String) : Except PyDateError String :=
  match value with
  | none => Except.ok ""
  | some v =>
    let cs := v.data
    if cs = [] then Except.ok ""
    else
      let digits := ((cs.drop 6).take (cs.length - 8)).filter Char.isDigit
      if cs.take 6 = "/Date(".data ∧ cs.drop (cs.length - 2) = ")/".data ∧ digits ≠ [] then
        let seconds := natOfDigits digits / 1000
        if seconds ≤ maxPySeconds then Except.ok (dateIso (civilFromDays (seconds / 86400)))
        else Except.error PyDateError.overflow
      else
        match fromisoformat? (replaceZ cs) with
        | some ymd => Except.ok (dateIso ymd)
        | none => Except.ok ""

lemma digitChar_toNat (k : Nat) (h : k < 10) : (digitChar k).toNat = 48 + k := by
  interval_cases k <;> decide

lemma digitChar_isDigit (k : Nat) (h : k < 10) : (digitChar k).isDigit = true := by
  interval_cases k <;> decide

lemma digitVal_digitChar (k : Nat) (h : k < 10) : digitVal (digitChar k) = k := by
  interval_cases k <;> decide

lemma digitChar_mod_ne (n : Nat) (c : Char) (hc : c.isDigit = false) :
    digitChar (n % 10) ≠ c := by
  intro he
  have hd := digitChar_isDigit (n % 10) (Nat.mod_lt _ (by decide))
  rw [he, hc] at hd
  cases hd

lemma replaceZ_nil : replaceZ [] = [] := rfl

lemma replaceZ_cons (c : Char) (cs : List Char) :
    replaceZ (c :: cs) = (if c = 'Z' then "+00:00".data else [c]) ++ replaceZ cs := by
  simp [replaceZ]

lemma splitAtFirst_cons_ne (p c : Char) (cs : List Char) (h : ¬ c = p) :
    splitAtFirst p (c :: cs) = (c :: (splitAtFirst p cs).1, (splitAtFirst p cs).2) := by
  simp [splitAtFirst, h]

lemma splitAtFirst_cons_eq (p : Char) (cs : List Char) :
    splitAtFirst p (p :: cs) = ([], cs) := by
  simp [splitAtFirst]

lemma twoDigits_pad2 (n : Nat) (rest : List Char) (h : n ≤ 99) :
    twoDigits? (digitChar (n / 10 % 10) :: digitChar (n % 10) :: rest) = some (n, rest) := by
  have h1 := digitChar_isDigit (n / 10 % 10) (Nat.mod_lt _ (by decide))
  have h2 := digitChar_isDigit (n % 10) (Nat.mod_lt _ (by decide))
  have v1 := digitVal_digitChar (n / 10 % 10) (Nat.mod_lt _ (by decide))
  have v2 := digitVal_digitChar (n % 10) (Nat.mod_lt _ (by decide))
  simp [twoDigits?, h1, h2, v1, v2]
  omega

lemma validHMS_pads (hh mi ss : Nat) (hh2 : hh ≤ 23) (hmi : mi ≤ 59) (hss : ss ≤ 59) :
    validHMS (digitChar (hh / 10 % 10) :: digitChar (hh % 10) :: ':' ::
      digitChar (mi / 10 % 10) :: digitChar (mi % 10) :: ':' ::
      digitChar (ss / 10 % 10) :: digitChar (ss % 10) :: []) = true := by
  have t1 : ∀ rest, twoDigits? (digitChar (hh / 10 % 10) :: digitChar (hh % 10) :: rest) =
      some (hh, rest) := fun rest => twoDigits_pad2 hh rest (by omega)
  have t2 : ∀ rest, twoDigits? (digitChar (mi / 10 % 10) :: digitChar (mi % 10) :: rest) =
      some (mi, rest) := fun rest => twoDigits_pad2 mi rest (by omega)
  have t3 : ∀ rest, twoDigits? (digitChar (ss / 10 % 10) :: digitChar (ss % 10) :: rest) =
      some (ss, rest) := fun rest => twoDigits_pad2 ss rest (by omega)
  simp only [validHMS, t1, t2, t3]
  simp [hh2, hmi, hss]

lemma isoDate_pads (y m d : Nat) (hy1 : 1 ≤ y) (hy2 : y ≤ 9999) (hm1 : 1 ≤ m)
    (hm2 : m ≤ 12) (hd1 : 1 ≤ d) (hd2 : d ≤ daysInMonth y m) :
    isoDate? [digitChar (y / 1000 % 10), digitChar (y / 100 % 10),
      digitChar (y / 10 % 10), digitChar (y % 10), '-',
      digitChar (m / 10 % 10), digitChar (m % 10), '-',
      digitChar (d / 10 % 10), digitChar (d % 10)] = some (y, m, d) := by
  have hD : ∀ n : Nat, (digitChar (n % 10)).isDigit = true := fun n =>
    digitChar_isDigit _ (Nat.mod_lt _ (by decide))
  have hV : ∀ n : Nat, digitVal (digitChar (n % 10)) = n % 10 := fun n =>
    digitVal_digitChar _ (Nat.mod_lt _ (by decide))
  have hyv : 1000 * (y / 1000 % 10) + 100 * (y / 100 % 10) + 10 * (y / 10 % 10) + y % 10 = y := by
    omega
  have hmv : 10 * (m / 10 % 10) + m % 10 = m := by omega
  have hd31 : daysInMonth y m ≤ 31 := by
    rw [daysInMonth]
    split
    · split <;> omega
    · split <;> omega
  have hdv : 10 * (d / 10 % 10) + d % 10 = d := by omega
  simp only [isoDate?, hD, hV, Bool.and_self, if_true, hyv, hmv, hdv]
  rw [if_pos ⟨hy1, hm1, hm2, hd1, hd2⟩]

lemma validTimeOffset_pads (hh mi ss : Nat) (hh2 : hh ≤ 23) (hmi : mi ≤ 59) (hss : ss ≤ 59) :
    validTimeOffset (digitChar (hh / 10 % 10) :: digitChar (hh % 10) :: ':' ::
      digitChar (mi / 10 % 10) :: digitChar (mi % 10) :: ':' ::
      digitChar (ss / 10 % 10) :: digitChar (ss % 10) :: '+' :: '0' :: '0' :: ':' ::
      '0' :: '0' :: []) = true := by
  have hMinusf : ∀ n : Nat, ¬(('-' : Char) = digitChar (n % 10)) := fun n h =>
    digitChar_mod_ne n '-' (by decide) h.symm
  have hPlusf : ∀ n : Nat, ¬(digitChar (n % 10) = '+') := fun n =>
    digitChar_mod_ne n '+' (by decide)
  have l1 : ¬(('-' : Char) = ':') := by decide
  have l2 : ¬(('-' : Char) = '+') := by decide
  have l3 : ¬(('-' : Char) = '0') := by decide
  have hnoM : ('-' : Char) ∉ (digitChar (hh / 10 % 10) :: digitChar (hh % 10) :: ':' ::
      digitChar (mi / 10 % 10) :: digitChar (mi % 10) :: ':' ::
      digitChar (ss / 10 % 10) :: digitChar (ss % 10) :: '+' :: '0' :: '0' :: ':' ::
      '0' :: '0' :: []) := by
    simp only [List.mem_cons, List.not_mem_nil, or_false]
    push_neg
    exact ⟨hMinusf _, hMinusf _, l1, hMinusf _, hMinusf _, l1, hMinusf _, hMinusf _,
      l2, l3, l3, l1, l3, l3⟩
  have hyesP : ('+' : Char) ∈ (digitChar (hh / 10 % 10) :: digitChar (hh % 10) :: ':' ::
      digitChar (mi / 10 % 10) :: digitChar (mi % 10) :: ':' ::
      digitChar (ss / 10 % 10) :: digitChar (ss % 10) :: '+' :: '0' :: '0' :: ':' ::
      '0' :: '0' :: []) := by
    simp only [List.mem_cons]
    tauto
  rw [validTimeOffset, if_neg hnoM, if_pos hyesP]
  have c1 : ¬((':' : Char) = '+') := by decide
  simp only [splitAtFirst_cons_ne _ _ _ (hPlusf _), splitAtFirst_cons_ne _ _ _ c1,
    splitAtFirst_cons_eq]
  simp only [validHMS_pads hh mi ss hh2 hmi hss]
  decide

lemma fromiso_pads (y m d hh mi ss : Nat) (hy1 : 1 ≤ y) (hy2 : y ≤ 9999)
    (hm1 : 1 ≤ m) (hm2 : m ≤ 12) (hd1 : 1 ≤ d) (hd2 : d ≤ daysInMonth y m)
    (hh2 : hh ≤ 23) (hmi : mi ≤ 59) (hss : ss ≤ 59) :
    fromisoformat? (replaceZ (digitChar (y / 1000 % 10) :: digitChar (y / 100 % 10) ::
      digitChar (y / 10 % 10) :: digitChar (y % 10) :: '-' ::
      digitChar (m / 10 % 10) :: digitChar (m % 10) :: '-' ::
      digitChar (d / 10 % 10) :: digitChar (d % 10) :: 'T' ::
      digitChar (hh / 10 % 10) :: digitChar (hh % 10) :: ':' ::
      digitChar (mi / 10 % 10) :: digitChar (mi % 10) :: ':' ::
      digitChar (ss / 10 % 10) :: digitChar (ss % 10) :: 'Z' :: [])) = some (y, m, d) := by
  have hZf : ∀ n : Nat, ¬(digitChar (n % 10) = 'Z') := fun n =>
    digitChar_mod_ne n 'Z' (by decide)
  have hplus : "+00:00".data = ['+', '0', '0', ':', '0', '0'] := rfl
  have htake10 : ∀ (a0 a1 a2 a3 a4 a5 a6 a7 a8 a9 : Char) (rest : List Char),
      (a0 :: a1 :: a2 :: a3 :: a4 :: a5 :: a6 :: a7 :: a8 :: a9 :: rest).take 10 =
        [a0, a1, a2, a3, a4, a5, a6, a7, a8, a9] :=
    fun _ _ _ _ _ _ _ _ _ _ _ => rfl
  have hdrop10 : ∀ (a0 a1 a2 a3 a4 a5 a6 a7 a8 a9 : Char) (rest : List Char),
      (a0 :: a1 :: a2 :: a3 :: a4 :: a5 :: a6 :: a7 :: a8 :: a9 :: rest).drop 10 = rest :=
    fun _ _ _ _ _ _ _ _ _ _ _ => rfl
  have hrz : replaceZ (digitChar (y / 1000 % 10) :: digitChar (y / 100 % 10) ::
      digitChar (y / 10 % 10) :: digitChar (y % 10) :: '-' ::
      digitChar (m / 10 % 10) :: digitChar (m % 10) :: '-' ::
      digitChar (d / 10 % 10) :: digitChar (d % 10) :: 'T' ::
      digitChar (hh / 10 % 10) :: digitChar (hh % 10) :: ':' ::
      digitChar (mi / 10 % 10) :: digitChar (mi % 10) :: ':' ::
      digitChar (ss / 10 % 10) :: digitChar (ss % 10) :: 'Z' :: []) =
      (digitChar (y / 1000 % 10) :: digitChar (y / 100 % 10) ::
      digitChar (y / 10 % 10) :: digitChar (y % 10) :: '-' ::
      digitChar (m / 10 % 10) :: digitChar (m % 10) :: '-' ::
      digitChar (d / 10 % 10) :: digitChar (d % 10) :: 'T' ::
      digitChar (hh / 10 % 10) :: digitChar (hh % 10) :: ':' ::
      digitChar (mi / 10 % 10) :: digitChar (mi % 10) :: ':' ::
      digitChar (ss / 10 % 10) :: digitChar (ss % 10) :: '+' :: '0' :: '0' :: ':' ::
      '0' :: '0' :: []) := by
    simp [replaceZ_cons, replaceZ_nil, hZf, hplus]
  rw [hrz]
  rw [fromisoformat?]
  rw [htake10, hdrop10]
  rw [isoDate_pads y m d hy1 hy2 hm1 hm2 hd1 hd2]
  have hvt := validTimeOffset_pads hh mi ss hh2 hmi hss
  simp [hvt]

lemma parse_iso_z (y m d hh mi ss : Nat) (hy1 : 1 ≤ y) (hy2 : y ≤ 9999)
    (hm1 : 1 ≤ m) (hm2 : m ≤ 12) (hd1 : 1 ≤ d) (hd2 : d ≤ daysInMonth y m)
    (hh2 : hh ≤ 23) (hmi : mi ≤ 59) (hss : ss ≤ 59) :
    parse_legistar_date (some ⟨pad4 y ++ '-' :: pad2 m ++ '-' :: pad2 d ++
        'T' :: pad2 hh ++ ':' :: pad2 mi ++ ':' :: pad2 ss ++ ['Z']⟩) =
      Except.ok (dateIso (y, m, d)) := by
  have hSlashf : ∀ n : Nat, ¬(digitChar (n % 10) = '/') := fun n =>
    digitChar_mod_ne n '/' (by decide)
  have hdat : "/Date(".data = ['/', 'D', 'a', 't', 'e', '('] := rfl
  simp only [parse_legistar_date, pad4, pad2, List.cons_append, List.nil_append]
  split
  next hnil => exact absurd hnil (by simp)
  next hnil =>
    split
    next hleg =>
      exfalso
      obtain ⟨h1, -, -⟩ := hleg
      have hh1 := congrArg List.head? h1
      simp at hh1
      exact hSlashf _ hh1
    next hleg =>
      rw [fromiso_pads y m d hh mi ss hy1 hy2 hm1 hm2 hd1 hd2 hh2 hmi hss]

/-- C4: the no-exception claim fails on the code.  On the well-formed legacy
input `"/Date(999999999999999999)/"` the embedded millisecond value puts the
timestamp beyond `datetime`'s year range, and `datetime.utcfromtimestamp` —
called outside the `try` block — raises, so an exception escapes
`parse_legistar_date` (modelled as `Except.error`). -/
theorem c4_legacy_overflow_raises :
    parse_legistar_date (some "/Date(999999999999999999)/") =
      Except.error PyDateError.overflow := by
  rfl

/-- C7: `parse_legistar_date` maps `"/Date(1700000000000)/"` to the UTC date
`"2023-11-14"`; maps every well-formed ISO date-time with a `"Z"` suffix to
its ten-character calendar-date prefix (the time of day is discarded); and
maps the empty string and malformed strings to the empty string. -/
theorem c7_date_normalization :
    parse_legistar_date (some "/Date(1700000000000)/") = Except.ok "2023-11-14" ∧
    (∀ y m d hh mi ss : Nat, 1 ≤ y → y ≤ 9999 → 1 ≤ m → m ≤ 12 → 1 ≤ d →
      d ≤ daysInMonth y m → hh ≤ 23 → mi ≤ 59 → ss ≤ 59 →
      parse_legistar_date (some ⟨pad4 y ++ '-' :: pad2 m ++ '-' :: pad2 d ++
          'T' :: pad2 hh ++ ':' :: pad2 mi ++ ':' :: pad2 ss ++ ['Z']⟩) =
        Except.ok (dateIso (y, m, d))) ∧
    parse_legistar_date (some "") = Except.ok "" ∧
    parse_legistar_date (some "not-a-date") = Except.ok "" ∧
    parse_legistar_date (some "2023-13-01") = Except.ok "" := by
  refine ⟨by rfl, ?_, by rfl, by rfl, by rfl⟩
  intro y m d hh mi ss hy1 hy2 hm1 hm2 hd1 hd2 hh2 hmi hss
  exact parse_iso_z y m d hh mi ss hy1 hy2 hm1 hm2 hd1 hd2 hh2 hmi hss

/-- Witness for C7 at a concrete input: the ISO string
`"2023-11-14T22:13:20Z"` normalizes to its date prefix `"2023-11-14"`. -/
theorem c7_date_normalization_witness :
    parse_legistar_date (some ⟨pad4 2023 ++ '-' :: pad2 11 ++ '-' :: pad2 14 ++
        'T' :: pad2 22 ++ ':' :: pad2 13 ++ ':' :: pad2 20 ++ ['Z']⟩) =
      Except.ok (dateIso (2023, 11, 14)) :=
  c7_date_normalization.2.1 2023 11 14 22 13 20 (by decide) (by decide) (by decide)
    (by decide) (by decide) (by decide) (by decide) (by decide) (by decide)

/-- One matter as fetched from `GET /matters`, together with the per-matter
data the run fetches for it (`history` action names, `sponsors`).  String
fields are `Option` (absent/null as `none`); `MatterId` is the source's
integer id. -/
structure Matter where
  matterId : Int
  matterFile : Option String
  matterName : Option String
  matterTitle : Option String
  matterText : Option String
  matterTypeName : Option String
  department : Option String
  matterInControlName : Option String
  matterLastActionName : Option String
  matterFinalActionName : Option String
  matterLastActionDate : Option String
  matterFinalActionDate : Option String
  matterPassedDate : Option String
  matterStatusName : Option String
  history : List (Option String)
  sponsors : List Sponsor
deriving DecidableEq

/-- The `item` dict assembled in `run_monitor` and handed to `push_to_notion`. -/
structure Record where
  matter_id : Int
  file_number : String
  title : String
  type : String
  priority : String
  department : String
  in_control : String
  action : String
  action_date : String
  final_action_date : String
  primary_sponsor : String
  secondary_sponsors : List String
  committees : List String
  keyword_groups : List String
  status : String
  url : String
  date_checked : String
deriving DecidableEq

/-- Python's `m.get(k) or m.get(k2, "")` idiom: the first value if truthy,
else the second value with empty-string default. -/
def pyOr (a b : Option String) : String :=
  match a with
  | some s => if s = "" then b.getD "" else s
  | none => b.getD ""

/-- The text scanned for keywords: `" ".join(filter(None, [name, title, text]))`. -/
def textOf (m : Matter) : String :=
  String.intercalate " "
    (([m.matterName.getD "", m.matterTitle.getD "", m.matterText.getD ""]).filter (· ≠ ""))

/-- The keyword hits computed for a matter. -/
def hitsOf (m : Matter) : List (String × List String) :=
  match_keywords (textOf m)

/-- The department string handed to `department_trigger`: `m.get("Department", "")`. -/
def deptOf (m : Matter) : String :=
  m.department.getD ""

/-- The distinct non-empty history action names
(`list({h.get("MatterHistoryActionName", "") for h in history if h.get(...)})`;
the Python set's iteration order is irrelevant to every downstream use, the
model keeps first occurrences). -/
def committeesOf (m : Matter) : List String :=
  ((m.history.filterMap id).filter (· ≠ "")).dedup

/-- The eligibility test of the run loop: `if not keyword_hits and not
dept_hit: continue` — a matter proceeds iff some keyword group hit or the
department triggered. -/
def eligible (m : Matter) : Bool :=
  !(hitsOf m).isEmpty || department_trigger (deptOf m)

/-- Status normalization of a raw `MatterStatusName` value:
`m.get("MatterStatusName", "Pending")` then fall back to `"Pending"` when the
value is not a known status. -/
def statusNorm (v : Option String) : String :=
  let s := v.getD "Pending"
  if s ∈ KNOWN_STATUSES then s else "Pending"

/-- The normalized status of a matter. -/
def statusOf (m : Matter) : String :=
  statusNorm m.matterStatusName

/-- Assembly of the `item` dict for one eligible matter (`today` is the
`datetime.utcnow().date().isoformat()` value).  The two date parses happen
here, in source order; an escaping date exception aborts assembly. -/
def assemble (m : Matter) (today : String) : Except PyDateError Record :=
  match parse_legistar_date
      (some (pyOr m.matterLastActionDate m.matterFinalActionDate)) with
  | Except.error e => Except.error e
  | Except.ok ad =>
    match parse_legistar_date (some (m.matterPassedDate.getD "")) with
    | Except.error e => Except.error e
    | Except.ok fd =>
      Except.ok
        { matter_id := m.matterId
          file_number := m.matterFile.getD ""
          title := m.matterName.getD "Untitled"
          type := m.matterTypeName.getD ""
          priority := assign_priority (hitsOf m) (department_trigger (deptOf m))
            (committee_escalation (committeesOf m))
          department := deptOf m
          in_control := m.matterInControlName.getD ""
          action := pyOr m.matterLastActionName m.matterFinalActionName
          action_date := ad
          final_action_date := fd
          primary_sponsor := (fetch_sponsors m.sponsors).1.getD ""
          secondary_sponsors := (fetch_sponsors m.sponsors).2
          committees := committeesOf m
          keyword_groups := (hitsOf m).map Prod.fst
          status := statusOf m
          url := "https://sfgov.legistar.com/LegislationDetail.aspx?ID=" ++
            toString m.matterId
          date_checked := today }

/-- How a run ends prematurely: an escaped date-parse exception, or a
rejected Notion write (`push_to_notion` raises on any non-ok response). -/
inductive Abort where
  | dateError
  | pushError
deriving DecidableEq

/-- Prepend a successfully written record to a run outcome (the write
happened before the rest of the loop ran, so it is kept on abort too). -/
def pushCons (r : Record) :
    Except (List Record × Abort) (List Record) →
      Except (List Record × Abort) (List Record)
  | Except.ok rs => Except.ok (r :: rs)
  | Except.error (ws, a) => Except.error (r :: ws, a)

/-- The `run_monitor` loop over the fetched matter list, from a given
seen-id set.  `ok` is the Notion write oracle: `ok r = false` models a
non-success response, on which `push_to_notion` raises and the run aborts.
The error value carries the records already written in this call (they are
not undone) and the abort kind; the ok value carries all written records in
order. -/
def runE (ok : Record → Bool) (today : String) :
    List Int → List Matter → Except (List Record × Abort) (List Record)
  | _, [] => Except.ok []
  | seen, m :: rest =>
    if m.matterId ∈ seen then runE ok today seen rest
    else
      if eligible m then
        match assemble m today with
        | Except.error _ => Except.error ([], Abort.dateError)
        | Except.ok r =>
          if ok r then pushCons r (runE ok today (m.matterId :: seen) rest)
          else Except.error ([], Abort.pushError)
      else runE ok today (m.matterId :: seen) rest

/-- The records actually written to Notion by a run outcome (on abort, the
writes already performed remain). -/
def recordsOf : Except (List Record × Abort) (List Record) → List Record
  | Except.ok rs => rs
  | Except.error (ws, _) => ws

/-- `run_monitor` from the source: process the fetched list with an empty
seen-id set. -/
def run_monitor (ok : Record → Bool) (today : String) (matters : List Matter) :
    Except (List Record × Abort) (List Record) :=
  runE ok today [] matters

/-- The seen-id set after processing a list of matters (every not-yet-seen id
is added, before the eligibility test). -/
def seenAfter : List Int → List Matter → List Int
  | seen, [] => seen
  | seen, m :: rest =>
    if m.matterId ∈ seen then seenAfter seen rest
    else seenAfter (m.matterId :: seen) rest

lemma assemble_ok_fields {m : Matter} {today : String} {r : Record}
    (h : assemble m today = Except.ok r) :
    r.matter_id = m.matterId ∧ r.keyword_groups = (hitsOf m).map Prod.fst ∧
      r.department = deptOf m ∧ r.status = statusOf m := by
  rw [assemble] at h
  cases h1 : parse_legistar_date
      (some (pyOr m.matterLastActionDate m.matterFinalActionDate)) with
  | error e => rw [h1] at h; cases h
  | ok ad =>
    rw [h1] at h
    cases h2 : parse_legistar_date (some (m.matterPassedDate.getD "")) with
    | error e => rw [h2] at h; cases h
    | ok fd =>
      rw [h2] at h
      injection h with h
      subst h
      exact ⟨rfl, rfl, rfl, rfl⟩

lemma runE_ok_spec (ok : Record → Bool) (today : String) (matters : List Matter) :
    ∀ (seen : List Int) (rs : List Record),
      (matters.map Matter.matterId).Nodup →
      (∀ m ∈ matters, m.matterId ∉ seen) →
      runE ok today seen matters = Except.ok rs →
      (∀ r ∈ rs, ∃ m ∈ matters, eligible m = true ∧ assemble m today = Except.ok r ∧
        ok r = true) ∧
      (∀ m ∈ matters, eligible m = true → ∃ r ∈ rs, assemble m today = Except.ok r) := by
  induction matters with
  | nil =>
    intro seen rs _ _ h
    rw [runE] at h
    injection h with h
    subst h
    exact ⟨by simp, by simp⟩
  | cons m0 rest ih =>
    intro seen rs hnd hseen h
    rw [runE] at h
    rw [if_neg (hseen m0 (List.mem_cons_self m0 rest))] at h
    rw [List.map_cons, List.nodup_cons] at hnd
    obtain ⟨hm0, hnd'⟩ := hnd
    have hseen' : ∀ m ∈ rest, m.matterId ∉ (m0.matterId :: seen) := by
      intro m hm
      rw [List.mem_cons]
      push_neg
      exact ⟨fun he => hm0 (he ▸ List.mem_map_of_mem Matter.matterId hm),
        hseen m (List.mem_cons_of_mem _ hm)⟩
    by_cases helig : eligible m0 = true
    · rw [if_pos helig] at h
      cases ha : assemble m0 today with
      | error e => rw [ha] at h; cases h
      | ok r0 =>
        simp only [ha] at h
        by_cases hok : ok r0 = true
        · rw [if_pos hok] at h
          cases hrec : runE ok today (m0.matterId :: seen) rest with
          | error wa =>
            obtain ⟨ws, a⟩ := wa
            rw [hrec] at h
            simp [pushCons] at h
          | ok rs' =>
            rw [hrec] at h
            simp only [pushCons] at h
            injection h with h
            subst h
            obtain ⟨ihA, ihB⟩ := ih (m0.matterId :: seen) rs' hnd' hseen' hrec
            constructor
            · intro r hr
              rcases List.mem_cons.mp hr with h1 | h1
              · exact ⟨m0, List.mem_cons_self m0 rest, helig, h1 ▸ ha, h1 ▸ hok⟩
              · obtain ⟨m, hm, h3, h4, h5⟩ := ihA r h1
                exact ⟨m, List.mem_cons_of_mem _ hm, h3, h4, h5⟩
            · intro m hm he
              rcases List.mem_cons.mp hm with h1 | h1
              · subst h1
                exact ⟨r0, List.mem_cons_self r0 rs', ha⟩
              · obtain ⟨r, hr, hro⟩ := ihB m h1 he
                exact ⟨r, List.mem_cons_of_mem _ hr, hro⟩
        · rw [if_neg hok] at h
          cases h
    · rw [if_neg helig] at h
      obtain ⟨ihA, ihB⟩ := ih (m0.matterId :: seen) rs hnd' hseen' h
      constructor
      · intro r hr
        obtain ⟨m, hm, h3, h4, h5⟩ := ihA r hr
        exact ⟨m, List.mem_cons_of_mem _ hm, h3, h4, h5⟩
      · intro m hm he
        rcases List.mem_cons.mp hm with h1 | h1
        · subst h1
          exact absurd he helig
        · obtain ⟨r, hr, hro⟩ := ihB m h1 he
          exact ⟨r, hr, hro⟩

/-- C2: in a completed run over distinct matters, a matter is assembled and
exported iff its keyword-match mapping is non-empty or its department trigger
is true (committee escalation alone does not qualify), and every exported
record has a non-empty `keyword_groups` or a trigger-matching department. -/
theorem c2_eligibility_filter (matters : List Matter) (today : String) (rs : List Record)
    (hnd : (matters.map Matter.matterId).Nodup)
    (hok : run_monitor (fun _ => true) today matters = Except.ok rs) :
    (∀ m ∈ matters, ((∃ r ∈ rs, r.matter_id = m.matterId) ↔
      (hitsOf m ≠ [] ∨ department_trigger (deptOf m) = true))) ∧
    (∀ r ∈ rs, r.keyword_groups ≠ [] ∨ department_trigger r.department = true) := by
  obtain ⟨hA, hB⟩ := runE_ok_spec (fun _ => true) today matters [] rs hnd (by simp) hok
  have heligIff : ∀ m : Matter, eligible m = true ↔
      (hitsOf m ≠ [] ∨ department_trigger (deptOf m) = true) := by
    intro m
    rw [eligible, Bool.or_eq_true, Bool.not_eq_true', List.isEmpty_eq_false]
  constructor
  · intro m hm
    constructor
    · rintro ⟨r, hr, hid⟩
      obtain ⟨m', hm', helig, hasm, -⟩ := hA r hr
      have hid' : r.matter_id = m'.matterId := (assemble_ok_fields hasm).1
      have hmm : m' = m := List.inj_on_of_nodup_map hnd hm' hm (by rw [← hid', hid])
      subst hmm
      exact (heligIff m').mp helig
    · intro hcond
      obtain ⟨r, hr, hasm⟩ := hB m hm ((heligIff m).mpr hcond)
      exact ⟨r, hr, (assemble_ok_fields hasm).1⟩
  · intro r hr
    obtain ⟨m, hm, helig, hasm, -⟩ := hA r hr
    obtain ⟨-, hkg, hdep, -⟩ := assemble_ok_fields hasm
    rcases (heligIff m).mp helig with h | h
    · left
      rw [hkg]
      intro hne
      exact h (List.map_eq_nil_iff.mp hne)
    · right
      rw [hdep]
      exact h

/-- Sample matter 1: keyword hit (arts), no department, no committee. -/
def mA : Matter :=
  { matterId := 1, matterFile := none, matterName := some "Public Art Mural",
    matterTitle := none, matterText := none, matterTypeName := none,
    department := none, matterInControlName := none, matterLastActionName := none,
    matterFinalActionName := none, matterLastActionDate := none,
    matterFinalActionDate := none, matterPassedDate := none,
    matterStatusName := none, history := [], sponsors := [] }

/-- Sample matter 2: committee escalation only — no keyword hit, no
department trigger. -/
def mB : Matter :=
  { matterId := 2, matterFile := none, matterName := some "Zoning adjustments",
    matterTitle := none, matterText := none, matterTypeName := none,
    department := none, matterInControlName := none, matterLastActionName := none,
    matterFinalActionName := none, matterLastActionDate := none,
    matterFinalActionDate := none, matterPassedDate := none,
    matterStatusName := none, history := [some "Budget and Finance Committee"],
    sponsors := [] }

/-- The record the run assembles for `mA` on 2025-01-01. -/
def recA : Record :=
  { matter_id := 1, file_number := "", title := "Public Art Mural", type := "",
    priority := "LOW", department := "", in_control := "", action := "",
    action_date := "", final_action_date := "", primary_sponsor := "",
    secondary_sponsors := [], committees := [],
    keyword_groups := ["arts_culture"], status := "Pending",
    url := "https://sfgov.legistar.com/LegislationDetail.aspx?ID=1",
    date_checked := "2025-01-01" }

/-- Witness for C2 at a concrete run: matter `mA` is exported (its record has
the required invariant), while committee-only `mB` is skipped. -/
theorem c2_eligibility_filter_witness :
    recA.keyword_groups ≠ [] ∨ department_trigger recA.department = true :=
  (c2_eligibility_filter [mA, mB] "2025-01-01" [recA] (by decide) (by rfl)).2
    recA (List.mem_singleton.mpr rfl)

lemma statusNorm_mem (v : Option String) :
    statusNorm v ∈ KNOWN_STATUSES ∧ statusNorm v ≠ "" := by
  rw [statusNorm]
  split
  next h =>
    refine ⟨h, ?_⟩
    intro he
    rw [he] at h
    revert h
    decide
  next h =>
    exact ⟨by decide, by decide⟩

lemma recordsOf_pushCons (r : Record) (e : Except (List Record × Abort) (List Record)) :
    recordsOf (pushCons r e) = r :: recordsOf e := by
  cases e with
  | ok rs => rfl
  | error wa =>
    obtain ⟨ws, a⟩ := wa
    rfl

lemma runE_records_assembled (ok : Record → Bool) (today : String) :
    ∀ (matters : List Matter) (seen : List Int),
      ∀ r ∈ recordsOf (runE ok today seen matters),
        ∃ m ∈ matters, assemble m today = Except.ok r := by
  intro matters
  induction matters with
  | nil =>
    intro seen r hr
    rw [runE] at hr
    simp [recordsOf] at hr
  | cons m0 rest ih =>
    intro seen r hr
    rw [runE] at hr
    by_cases hs : m0.matterId ∈ seen
    · rw [if_pos hs] at hr
      obtain ⟨m, hm, hasm⟩ := ih seen r hr
      exact ⟨m, List.mem_cons_of_mem _ hm, hasm⟩
    · rw [if_neg hs] at hr
      by_cases helig : eligible m0 = true
      · rw [if_pos helig] at hr
        cases ha : assemble m0 today with
        | error e =>
          rw [ha] at hr
          simp [recordsOf] at hr
        | ok r0 =>
          simp only [ha] at hr
          by_cases hok : ok r0 = true
          · rw [if_pos hok, recordsOf_pushCons] at hr
            rcases List.mem_cons.mp hr with h1 | h1
            · exact ⟨m0, List.mem_cons_self m0 rest, h1 ▸ ha⟩
            · obtain ⟨m, hm, hasm⟩ := ih (m0.matterId :: seen) r h1
              exact ⟨m, List.mem_cons_of_mem _ hm, hasm⟩
          · rw [if_neg hok] at hr
            simp [recordsOf] at hr
      · rw [if_neg helig] at hr
        obtain ⟨m, hm, hasm⟩ := ih (m0.matterId :: seen) r hr
        exact ⟨m, List.mem_cons_of_mem _ hm, hasm⟩

/-- C8: every record a run writes carries a status drawn from the fixed
`KNOWN_STATUSES` set and never the empty string; and the normalization maps
every missing, null, empty, or unrecognized source value to `"Pending"`. -/
theorem c8_status_normalized (matters : List Matter) (ok : Record → Bool) (today : String) :
    (∀ r ∈ recordsOf (run_monitor ok today matters),
      r.status ∈ KNOWN_STATUSES ∧ r.status ≠ "") ∧
    (∀ v : Option String, (∀ s, v = some s → s ∉ KNOWN_STATUSES) →
      statusNorm v = "Pending") := by
  constructor
  · intro r hr
    obtain ⟨m, -, hasm⟩ := runE_records_assembled ok today matters [] r hr
    have hst : r.status = statusOf m := (assemble_ok_fields hasm).2.2.2
    rw [hst, statusOf]
    exact statusNorm_mem m.matterStatusName
  · intro v hv
    cases v with
    | none => rfl
    | some s =>
      rw [statusNorm]
      simp only [Option.getD_some]
      rw [if_neg (hv s rfl)]

/-- Witness for C8 at a concrete run: the record exported for `mA` (whose
source status is absent) carries the known, non-empty status `"Pending"`. -/
theorem c8_status_normalized_witness :
    recA.status ∈ KNOWN_STATUSES ∧ recA.status ≠ "" :=
  (c8_status_normalized [mA, mB] (fun _ => true) "2025-01-01").1 recA
    (by rw [show recordsOf (run_monitor (fun _ => true) "2025-01-01" [mA, mB]) =
          [recA] from rfl]
        exact List.mem_singleton.mpr rfl)

lemma runE_ids_nodup (ok : Record → Bool) (today : String) :
    ∀ (matters : List Matter) (seen : List Int),
      ((recordsOf (runE ok today seen matters)).map Record.matter_id).Nodup ∧
      (∀ r ∈ recordsOf (runE ok today seen matters), r.matter_id ∉ seen) := by
  intro matters
  induction matters with
  | nil =>
    intro seen
    rw [runE]
    exact ⟨by simp [recordsOf], by simp [recordsOf]⟩
  | cons m0 rest ih =>
    intro seen
    rw [runE]
    by_cases hs : m0.matterId ∈ seen
    · rw [if_pos hs]
      exact ih seen
    · rw [if_neg hs]
      by_cases helig : eligible m0 = true
      · rw [if_pos helig]
        cases ha : assemble m0 today with
        | error e => exact ⟨by simp [recordsOf], by simp [recordsOf]⟩
        | ok r0 =>
          simp only []
          by_cases hok : ok r0 = true
          · rw [if_pos hok, recordsOf_pushCons]
            have hid0 : r0.matter_id = m0.matterId := (assemble_ok_fields ha).1
            obtain ⟨ih1, ih2⟩ := ih (m0.matterId :: seen)
            constructor
            · rw [List.map_cons, List.nodup_cons]
              refine ⟨?_, ih1⟩
              intro hmem
              rw [List.mem_map] at hmem
              obtain ⟨r, hr, hre⟩ := hmem
              exact ih2 r hr (by rw [hre, hid0]; exact List.mem_cons_self _ _)
            · intro r hr
              rcases List.mem_cons.mp hr with h1 | h1
              · rw [h1, hid0]
                exact hs
              · intro hmem
                exact ih2 r h1 (List.mem_cons_of_mem _ hmem)
          · rw [if_neg hok]
            exact ⟨by simp [recordsOf], by simp [recordsOf]⟩
      · rw [if_neg helig]
        obtain ⟨ih1, ih2⟩ := ih (m0.matterId :: seen)
        refine ⟨ih1, ?_⟩
        intro r hr hmem
        exact ih2 r hr (List.mem_cons_of_mem _ hmem)

/-- C10: within one run each distinct MatterId is exported at most once — the
matter ids of the written records are pairwise distinct — and a list entry
whose id was already processed is skipped before any classification: the loop
continues with the rest of the list unchanged. -/
theorem c10_dedup_within_run (ok : Record → Bool) (today : String) :
    (∀ matters : List Matter,
      ((recordsOf (run_monitor ok today matters)).map Record.matter_id).Nodup) ∧
    (∀ (seen : List Int) (m : Matter) (rest : List Matter), m.matterId ∈ seen →
      runE ok today seen (m :: rest) = runE ok today seen rest) := by
  constructor
  · intro matters
    exact (runE_ids_nodup ok today matters []).1
  · intro seen m rest h
    rw [runE, if_pos h]

/-- Witness for C10 at a concrete input: a matter whose id 2 was already seen
is skipped — the run continues exactly as if the entry were absent. -/
theorem c10_dedup_within_run_witness :
    runE (fun _ => true) "2025-01-01" [2] [mB] =
      runE (fun _ => true) "2025-01-01" [2] [] :=
  (c10_dedup_within_run (fun _ => true) "2025-01-01").2 [2] mB [] (by decide)

/-- C9: if a destination write is rejected at matter `m` (the oracle returns
false for its record), the run returns the push-failure abort at that point:
for every suffix `post`, nothing after `m` is classified or exported, while
the error carries exactly the records already written for the prefix — they
are not undone. -/
theorem c9_push_failure_aborts (ok : Record → Bool) (today : String)
    (pre : List Matter) (m : Matter) (post : List Matter) :
    ∀ (seen : List Int) (ws : List Record) (r : Record),
      runE ok today seen pre = Except.ok ws →
      m.matterId ∉ seenAfter seen pre →
      eligible m = true →
      assemble m today = Except.ok r →
      ok r = false →
      runE ok today seen (pre ++ m :: post) = Except.error (ws, Abort.pushError) := by
  induction pre with
  | nil =>
    intro seen ws r hws hseen helig hasm hok
    rw [runE] at hws
    injection hws with h
    subst h
    rw [seenAfter] at hseen
    rw [List.nil_append, runE, if_neg hseen, if_pos helig]
    simp [hasm, hok]
  | cons x pre ihp =>
    intro seen ws r hws hseen helig hasm hok
    rw [runE] at hws
    rw [seenAfter] at hseen
    rw [List.cons_append, runE]
    by_cases hs : x.matterId ∈ seen
    · rw [if_pos hs] at hws hseen ⊢
      exact ihp seen ws r hws hseen helig hasm hok
    · rw [if_neg hs] at hws hseen ⊢
      by_cases he : eligible x = true
      · rw [if_pos he] at hws ⊢
        cases hax : assemble x today with
        | error e =>
          rw [hax] at hws
          simp [pushCons] at hws
        | ok rx =>
          rw [hax] at hws
          simp only [hax]
          by_cases hokx : ok rx = true
          · simp only [if_pos hokx] at hws ⊢
            cases hrec : runE ok today (x.matterId :: seen) pre with
            | error wa =>
              obtain ⟨ws', a⟩ := wa
              rw [hrec] at hws
              simp [pushCons] at hws
            | ok ws' =>
              rw [hrec] at hws
              simp only [pushCons] at hws
              injection hws with hws
              subst hws
              rw [ihp (x.matterId :: seen) ws' r hrec hseen helig hasm hok]
              rfl
          · simp only [if_neg hokx] at hws
            cases hws
      · rw [if_neg he] at hws ⊢
        exact ihp (x.matterId :: seen) ws r hws hseen helig hasm hok

/-- Sample matter with a funding keyword hit (eligible, id 2), used to
exercise a rejected write. -/
def mD : Matter :=
  { matterId := 2, matterFile := none, matterName := some "Hotel Tax Fund",
    matterTitle := none, matterText := none, matterTypeName := none,
    department := none, matterInControlName := none, matterLastActionName := none,
    matterFinalActionName := none, matterLastActionDate := none,
    matterFinalActionDate := none, matterPassedDate := none,
    matterStatusName := none, history := [], sponsors := [] }

/-- The record the run assembles for `mD` on 2025-01-01. -/
def recD : Record :=
  { matter_id := 2, file_number := "", title := "Hotel Tax Fund", type := "",
    priority := "MEDIUM", department := "", in_control := "", action := "",
    action_date := "", final_action_date := "", primary_sponsor := "",
    secondary_sponsors := [], committees := [],
    keyword_groups := ["funding_tax"], status := "Pending",
    url := "https://sfgov.legistar.com/LegislationDetail.aspx?ID=2",
    date_checked := "2025-01-01" }

/-- Witness for C9 at a concrete run: the write for `mA` succeeds, the write
for `mD` is rejected, and the run aborts with exactly `mA`'s record written. -/
theorem c9_push_failure_aborts_witness :
    runE (fun r => r.matter_id == 1) "2025-01-01" [] ([mA] ++ mD :: []) =
      Except.error ([recA], Abort.pushError) :=
  c9_push_failure_aborts (fun r => r.matter_id == 1) "2025-01-01" [mA] mD []
    [] [recA] recD (by rfl) (by decide) (by rfl) (by rfl) (by rfl)

end PolicyRadar
